import Mathlib

/-!
# A shallow embedding of octarine's object registry and conversion/dispatch engine

This file embeds the core of the `octarine` 3D-viewer package:

* `conversion.py` — the converter registry (`CONVERTERS`, `get_converter`,
  `register_converter`).  The registry is a Python `dict`, modelled here as an
  association list together with CPython's insertion-order/key-deduplication
  semantics (`dictInsert` models `d[k] = v`, `dictFromItems` models `dict(items)`).
  The dynamic checks of `get_converter` (`t == k`, `type(t) == k`,
  `isinstance(t, k)`, `k(t) is True` with exceptions swallowed) are abstracted
  into a record of boolean-valued test functions (`PyDyn`).
* `utils.py` — the built-in type predicates (`is_points`, `is_lines`, …) over a
  small inductive type of the Python values they discriminate.
* `viewer.py` — the object identity index (`Viewer._objects`, an `lru_cache` of
  the grouping of scene children by `_object_id`), the state mutation engine
  (`hide_objects`, `unhide_objects`, `pin_objects`, `unpin_objects`,
  `set_colors`, `highlight_objects`, `unhighlight_objects`, the `selected`
  setter, `update_helper`), auto-naming (`_next_label`, `add_mesh`) and the
  animation loop (`_animate`, `add_animation`, `remove_animation`).
* `selection.py` — the pointer-move step of `BaseSelectionGizmo`.

Colors are abstracted to an opaque code (`Color := Nat`); equality of codes
stands for bit-for-bit RGBA channel equality.  GPU/Qt/Jupyter side effects
(legend redraws, `canvas.request_draw()`, actual rendering) are external
collaborators and are not modelled; the "needs redraw" boolean `_render_stale`
and the `lru_cache` state are.
-/

namespace Octarine

/-! ## Python `dict` semantics (CPython, insertion ordered)

`CONVERTERS` in `conversion.py` is a `dict`.  `dictInsert` models `d[k] = v`:
if the key is present its value is replaced in place, otherwise the pair is
appended.  `dictFromItems` models `dict(items)`: items are inserted in order,
so a duplicated key keeps its first-occurrence position but its last-assigned
value. -/

def dictInsert {K V : Type} [BEq K] (d : List (K × V)) (k : K) (v : V) :
    List (K × V) :=
  if d.any (fun p => p.1 == k) then
    d.map (fun p => if p.1 == k then (p.1, v) else p)
  else
    d ++ [(k, v)]

def dictFromItems {K V : Type} [BEq K] (items : List (K × V)) : List (K × V) :=
  items.foldl (fun d p => dictInsert d p.1 p.2) []

/-! ## The dynamic checks of `get_converter`

`get_converter` probes each registered matcher `k` against the input `t` with
four Python-dynamic tests.  `PyDyn` packages those tests; an instantiation
fixes how `==`, `type`, `isinstance`, `callable` and calling behave on the
modelled values.  `CallOutcome` records what `k(t)` does: raise (the source
swallows any exception and treats it as a non-match), return the object `True`,
or return anything else (merely truthy values do not match). -/

inductive CallOutcome : Type
  | raisesExc
  | returnsTrue
  | returnsOther
deriving DecidableEq, Repr

def isTrueOutcome : CallOutcome → Bool
  | .returnsTrue => true
  | _ => false

structure PyDyn (K V : Type) where
  isHashable : V → Bool
  pyEq : V → K → Bool
  typeEq : V → K → Bool
  isType : K → Bool
  isInst : V → K → Bool
  isCallable : K → Bool
  callOutcome : K → V → CallOutcome

/-- Result of `get_converter(t, raise_missing)`: a handler, `None`
(probe mode), or the `NotImplementedError` carrying the value (and hence its
runtime type). -/
inductive ConvResult (V H : Type) : Type
  | found (h : H)
  | noneFound
  | noConverterError (t : V)
deriving DecidableEq, Repr

/-- `conversion.get_converter`: scan the registry entries front-to-back; for
each entry `(k, v)` run the four checks in source order and return `v` on the
first success; if the scan finds nothing, return `None` when
`raise_missing=False` and raise otherwise. -/
def get_converter {K V H : Type} (dyn : PyDyn K V) (d : List (K × H)) (t : V)
    (raise_missing : Bool) : ConvResult V H :=
  match d with
  | [] => if raise_missing then .noConverterError t else .noneFound
  | (k, v) :: rest =>
    if dyn.isHashable t && dyn.pyEq t k then .found v
    else if dyn.typeEq t k then .found v
    else if dyn.isType k && dyn.isInst t k then .found v
    else if dyn.isCallable k && isTrueOutcome (dyn.callOutcome k t) then .found v
    else get_converter dyn rest t raise_missing

/-- An entry matches when any of the four checks of `get_converter` succeeds. -/
def entryMatches {K V : Type} (dyn : PyDyn K V) (k : K) (t : V) : Bool :=
  (dyn.isHashable t && dyn.pyEq t k)
  || dyn.typeEq t k
  || (dyn.isType k && dyn.isInst t k)
  || (dyn.isCallable k && isTrueOutcome (dyn.callOutcome k t))

inductive InsertPos : Type
  | first
  | last
deriving DecidableEq, Repr

/-- `conversion.register_converter` (validation of `converter`/`t` aside, which
raises `ValueError` before any mutation): `insert='first'` rebuilds the dict
from the new pair consed onto the existing items; `insert='last'` is a plain
`CONVERTERS[t] = converter` assignment. -/
def register_converter {K V : Type} [BEq K] (d : List (K × V)) (t : K) (conv : V)
    (insert : InsertPos) : List (K × V) :=
  match insert with
  | .first => dictFromItems ((t, conv) :: d)
  | .last => dictInsert d t conv

/-! ## The built-in registry (`utils.py` predicates and `CONVERTERS`) -/

/-- The Python values the built-in converters discriminate: numpy arrays of a
given shape, `trimesh.Trimesh`/`trimesh.Scene` instances, pygfx world objects
and geometries, and other objects exposing `vertices`/`faces` attributes. -/
inductive PV : Type
  | ndarray (shape : List Nat)
  | trimeshObj
  | trimeshScene
  | pygfxVisualObj
  | pygfxGeometryObj
  | meshLikeObj
deriving DecidableEq, Repr

/-- `utils.is_points`: a 2-dimensional numpy array with 3 columns. -/
def is_points : PV → Bool
  | .ndarray shape => shape.length == 2 && shape.getD 1 0 == 3
  | _ => false

/-- `utils.is_lines`: same test as `is_points` in the source. -/
def is_lines : PV → Bool
  | .ndarray shape => shape.length == 2 && shape.getD 1 0 == 3
  | _ => false

/-- `utils.is_volume`: a 3-dimensional numpy array. -/
def is_volume : PV → Bool
  | .ndarray shape => shape.length == 3
  | _ => false

/-- `utils.is_mesh_like`: has `vertices` and `faces` attributes
(`trimesh.Trimesh` instances do; numpy arrays, scenes and pygfx objects do
not). -/
def is_mesh_like : PV → Bool
  | .trimeshObj => true
  | .meshLikeObj => true
  | _ => false

/-- `utils.is_pygfx_visual`: `isinstance(x, gfx.WorldObject)`. -/
def is_pygfx_visual : PV → Bool
  | .pygfxVisualObj => true
  | _ => false

/-- `utils.is_pygfx_geometry`: `isinstance(x, gfx.Geometry)`. -/
def is_pygfx_geometry : PV → Bool
  | .pygfxGeometryObj => true
  | _ => false

/-- The keys of the built-in `CONVERTERS` dict: two trimesh types and six
predicate functions. -/
inductive BM : Type
  | predPygfxVisual
  | predPygfxGeometry
  | tyTrimesh
  | tyScene
  | predMeshLike
  | predPoints
  | predLines
  | predVolume
deriving DecidableEq, Repr

/-- The handlers of the built-in `CONVERTERS` dict (`visuals.py` conversion
functions, identified by name). -/
inductive Handler : Type
  | passthrough
  | addMaterial
  | trimesh2gfx
  | scene2gfx
  | mesh2gfx
  | points2gfx
  | lines2gfx
  | volume2gfx
deriving DecidableEq, Repr

/-- Python dynamics on the modelled values and built-in matchers: numpy arrays
are unhashable; no modelled value `==` a function or a class; `type(t) == k`
holds exactly for direct trimesh instances against their class;
`isinstance` likewise; classes and functions are all callable; calling a class
constructs an instance (never the object `True`), calling a predicate returns
its boolean (`True` or `False`, never raising on these values). -/
def octDyn : PyDyn BM PV where
  isHashable := fun t => match t with
    | .ndarray _ => false
    | _ => true
  pyEq := fun _ _ => false
  typeEq := fun t k => match t, k with
    | .trimeshObj, .tyTrimesh => true
    | .trimeshScene, .tyScene => true
    | _, _ => false
  isType := fun k => match k with
    | .tyTrimesh => true
    | .tyScene => true
    | _ => false
  isInst := fun t k => match t, k with
    | .trimeshObj, .tyTrimesh => true
    | .trimeshScene, .tyScene => true
    | _, _ => false
  isCallable := fun _ => true
  callOutcome := fun k t => match k with
    | .tyTrimesh => .returnsOther
    | .tyScene => .returnsOther
    | .predPygfxVisual => if is_pygfx_visual t then .returnsTrue else .returnsOther
    | .predPygfxGeometry => if is_pygfx_geometry t then .returnsTrue else .returnsOther
    | .predMeshLike => if is_mesh_like t then .returnsTrue else .returnsOther
    | .predPoints => if is_points t then .returnsTrue else .returnsOther
    | .predLines => if is_lines t then .returnsTrue else .returnsOther
    | .predVolume => if is_volume t then .returnsTrue else .returnsOther

/-- `conversion.CONVERTERS` in source order. -/
def CONVERTERS : List (BM × Handler) :=
  [(.predPygfxVisual, .passthrough),
   (.predPygfxGeometry, .addMaterial),
   (.tyTrimesh, .trimesh2gfx),
   (.tyScene, .scene2gfx),
   (.predMeshLike, .mesh2gfx),
   (.predPoints, .points2gfx),
   (.predLines, .lines2gfx),
   (.predVolume, .volume2gfx)]

/-! ## Viewer state (`viewer.py`)

A `Visual` is one scene child carrying an `_object_id` tag (the elements of
`Viewer.visuals`).  `pinned`/`highlighted` model the duck-typed `_pinned` and
`_highlighted` attributes read through `getattr(…, False)`; `original_color`
models `material._original_color` (buffered by `highlight_objects`);
`stored_color` models the `_stored_color` attribute (buffered by the `selected`
setter); `has_material` models `hasattr(v, "material")`. -/

abbrev Color := Nat

structure Visual where
  object_id : String
  visible : Bool
  pinned : Bool
  highlighted : Bool
  color : Color
  original_color : Option Color
  stored_color : Option Color
  has_material : Bool
deriving DecidableEq, Repr

abbrev Objects := List (String × List Visual)

/-- The viewer fields the mutation engine reads and writes: the tagged scene
children in scene order, `_selected`, the `lru_cache(maxsize=1)` slot behind
`Viewer._objects` (`none` = invalidated), `_render_stale`, and the
`highlight_color` class attribute (an abstract color code). -/
structure ViewerState where
  visuals : List Visual
  selected : List String
  cache : Option Objects
  renderStale : Bool
  highlight_color : Color
deriving DecidableEq, Repr

/-- One step of the grouping loop in `Viewer._objects`: append the visual to
its group if the id is already a key, else append a new singleton group. -/
def insertGroup (objs : Objects) (v : Visual) : Objects :=
  if objs.any (fun p => p.1 == v.object_id) then
    objs.map (fun p => if p.1 == v.object_id then (p.1, p.2 ++ [v]) else p)
  else
    objs ++ [(v.object_id, [v])]

/-- `Viewer._objects` recomputation: scan the scene children in stored order
and group them by `_object_id`, preserving first-occurrence order of ids. -/
def objectsOf (vs : List Visual) : Objects :=
  vs.foldl insertGroup []

/-- Reading `Viewer.objects`: return the cached grouping if the
`lru_cache` slot is filled, otherwise recompute and fill it. -/
def getObjects (s : ViewerState) : Objects × ViewerState :=
  match s.cache with
  | some o => (o, s)
  | none =>
    let o := objectsOf s.visuals
    (o, { s with cache := some o })

/-- `viewer.update_helper` (the tail of every `@update_viewer`-decorated
mutator and of the `selected` setter): clear the `_objects` cache and set
`_render_stale = True`.  Legend/bounds refresh and `canvas.request_draw()` are
external UI side effects and are not modelled. -/
def update_helper (s : ViewerState) : ViewerState :=
  { s with cache := none, renderStale := true }

/-- Mutate every visual of one object group in place: the Python loops
`for v in objects[ob]: …` mutate the scene children carrying that id. -/
def mapGroup (vs : List Visual) (ob : String) (f : Visual → Visual) :
    List Visual :=
  vs.map (fun v => if v.object_id == ob then f v else v)

/-- The id loop shared by `hide_objects` / `unhide_objects` / `pin_objects` /
`unpin_objects`: for each requested id, if it is a key of the `objects`
snapshot mutate its group, otherwise log a "not found" warning and continue. -/
def applyGroups (objs : Objects) (f : Visual → Visual) :
    List String → List Visual → List Visual
  | [], vs => vs
  | ob :: rest, vs =>
    if objs.any (fun p => p.1 == ob) then
      applyGroups objs f rest (mapGroup vs ob f)
    else
      applyGroups objs f rest vs

/-- The id loop of `highlight_objects` / `unhighlight_objects` for string ids:
an id that is not a key of the snapshot hits the final `else` branch and
raises `TypeError`, aborting the loop (mutations made so far stay applied).
Integer indices and raw pygfx objects, which the source also accepts, are not
modelled. -/
def applyGroupsE (objs : Objects) (f : Visual → Visual) :
    List String → List Visual → List Visual × Option Unit
  | [], vs => (vs, none)
  | ob :: rest, vs =>
    if objs.any (fun p => p.1 == ob) then
      applyGroupsE objs f rest (mapGroup vs ob f)
    else
      (vs, some ())

/-- Result of a mutator that can raise part-way: the state as mutated so far,
and whether a `TypeError` escaped. -/
structure PyResult where
  state : ViewerState
  raised : Bool
deriving DecidableEq, Repr

/-- Per-visual body of `hide_objects`: skip pinned, then clear `visible` if
set. -/
def hideV (v : Visual) : Visual :=
  if v.pinned then v
  else if v.visible then { v with visible := false }
  else v

/-- Per-visual body of `unhide_objects`. -/
def unhideV (v : Visual) : Visual :=
  if v.pinned then v
  else if !v.visible then { v with visible := true }
  else v

/-- Per-visual body of `set_colors`: skip pinned and material-less visuals,
then assign the converted color (conversion between 3- and 4-channel
representations keeps the same abstract code). -/
def colorV (c : Color) (v : Visual) : Visual :=
  if v.pinned then v
  else if !v.has_material then v
  else { v with color := c }

/-- Per-visual body of `highlight_objects`: skip pinned and
already-highlighted visuals; otherwise buffer the current color in
`material._original_color`, assign the new color (computed from the current
color by the HSL lightness adjustment, or a constant when an explicit color
was passed — both are instances of the function `hl`), and set
`_highlighted`. -/
def highlightV (hl : Color → Color) (v : Visual) : Visual :=
  if v.pinned then v
  else if v.highlighted then v
  else
    { v with
      original_color := some v.color
      color := hl v.color
      highlighted := true }

/-- Per-visual body of `unhighlight_objects`: skip pinned and non-highlighted
visuals; otherwise restore the color from `material._original_color`, delete
the buffer and the `_highlighted` flag.  (A highlighted visual always carries
the buffer — `highlight_objects` sets both together — so the `none` branch is
unreachable through the public API; in Python it would raise
`AttributeError`.) -/
def unhighlightV (v : Visual) : Visual :=
  if v.pinned then v
  else if !v.highlighted then v
  else
    match v.original_color with
    | some c =>
      { v with color := c, original_color := none, highlighted := false }
    | none => v

/-- Deselection body of the `selected` setter: restore
`material.color = v._stored_color`.  There is no pin check and the buffer is
not cleared.  (An id can only be in `_selected` after the setter stored the
buffer, so the `none` branch is unreachable through the setter; in Python it
would raise `AttributeError`.) -/
def restoreStored (v : Visual) : Visual :=
  match v.stored_color with
  | some c => { v with color := c }
  | none => v

/-- Selection body of the `selected` setter: buffer the current color in
`_stored_color` and assign the viewer's `highlight_color`.  There is no pin
check. -/
def storeSelect (hc : Color) (v : Visual) : Visual :=
  { v with stored_color := some v.color, color := hc }

/-- `Viewer.hide_objects` (decorated with `@update_viewer`): snapshot
`objects`, hide each requested group, then run `update_helper`. -/
def hide_objects (s : ViewerState) (ids : List String) : ViewerState :=
  let p := getObjects s
  update_helper
    { p.2 with visuals := applyGroups p.1 hideV ids p.2.visuals }

/-- `Viewer.unhide_objects` (decorated with `@update_viewer`): `None` means
all keys of the snapshot. -/
def unhide_objects (s : ViewerState) (ids : Option (List String)) :
    ViewerState :=
  let p := getObjects s
  let l := match ids with
    | some l => l
    | none => p.1.map Prod.fst
  update_helper
    { p.2 with visuals := applyGroups p.1 unhideV l p.2.visuals }

/-- `Viewer.pin_objects`: set `_pinned` on each requested group.  The source
has no `@update_viewer` decorator and no `update_helper` call here. -/
def pin_objects (s : ViewerState) (ids : List String) : ViewerState :=
  let p := getObjects s
  { p.2 with
    visuals := applyGroups p.1 (fun v => { v with pinned := true }) ids p.2.visuals }

/-- `Viewer.unpin_objects`: clear `_pinned`; `None` means all keys.  No
`@update_viewer` decorator and no `update_helper` call in the source. -/
def unpin_objects (s : ViewerState) (ids : Option (List String)) :
    ViewerState :=
  let p := getObjects s
  let l := match ids with
    | some l => l
    | none => p.1.map Prod.fst
  { p.2 with
    visuals := applyGroups p.1 (fun v => { v with pinned := false }) l p.2.visuals }

/-- Argument of `Viewer.set_colors`: a single color applied to all objects, or
a mapping id → color. -/
inductive ColorSpec : Type
  | single (c : Color)
  | mapping (m : List (String × Color))

/-- The key loop of `set_colors`: iterate the snapshot's keys in order and
recolor each group whose id the mapping mentions. -/
def applyColorGroups (cmap : List (String × Color)) :
    Objects → List Visual → List Visual
  | [], vs => vs
  | p :: rest, vs =>
    match (cmap.find? (fun q => q.1 == p.1)).map Prod.snd with
    | some c => applyColorGroups cmap rest (mapGroup vs p.1 (colorV c))
    | none => applyColorGroups cmap rest vs

/-- `Viewer.set_colors` (decorated with `@update_viewer(legend=True,
bounds=False)`): normalise the argument to a mapping over all snapshot keys,
recolor, then run `update_helper`. -/
def set_colors (s : ViewerState) (c : ColorSpec) : ViewerState :=
  let p := getObjects s
  let cmap : List (String × Color) := match c with
    | .single col => p.1.map (fun q => (q.1, col))
    | .mapping m => m
  update_helper { p.2 with visuals := applyColorGroups cmap p.1 p.2.visuals }

/-- `Viewer.highlight_objects` (no `@update_viewer` decorator, no
`update_helper` call): snapshot `objects`, then highlight each requested
group; an unknown string id raises `TypeError` mid-loop. -/
def highlight_objects (s : ViewerState) (ids : List String)
    (hl : Color → Color) : PyResult :=
  let p := getObjects s
  let r := applyGroupsE p.1 (highlightV hl) ids p.2.visuals
  ⟨{ p.2 with visuals := r.1 }, r.2.isSome⟩

/-- `Viewer.unhighlight_objects` (no `@update_viewer` decorator, no
`update_helper` call): `None` targets every currently highlighted visual
directly (equivalently, applies the per-visual body everywhere, since it is
the identity on non-highlighted visuals); a list of ids runs the same loop as
`highlight_objects`. -/
def unhighlight_objects (s : ViewerState) (ids : Option (List String)) :
    PyResult :=
  let p := getObjects s
  match ids with
  | none => ⟨{ p.2 with visuals := p.2.visuals.map unhighlightV }, false⟩
  | some l =>
    let r := applyGroupsE p.1 unhighlightV l p.2.visuals
    ⟨{ p.2 with visuals := r.1 }, r.2.isSome⟩

/-- The `Viewer.selected` setter: snapshot `objects`; restore the stored color
of every previously selected id that is leaving the selection; buffer-and-
recolor every id newly entering; store the new list; run `update_helper`.
Neither loop consults `_pinned`.  (An id absent from the snapshot would raise
`KeyError` in Python; the claims only exercise ids present on the canvas, for
which `mapGroup` is exact.) -/
def set_selected (s : ViewerState) (val : List String) : ViewerState :=
  let p := getObjects s
  let vs :=
    (p.2.selected.filter (fun x => !val.contains x)).foldl
      (fun vs x => mapGroup vs x restoreStored) p.2.visuals
  let vs :=
    (val.filter (fun x => !p.2.selected.contains x)).foldl
      (fun vs x => mapGroup vs x (storeSelect p.2.highlight_color)) vs
  update_helper { p.2 with visuals := vs, selected := val }

/-! ## Auto-naming (`Viewer._next_label`, `Viewer.add_mesh`) -/

/-- Python's `f"{n:03}"`: decimal digits left-padded with zeros to width 3. -/
def pad3 (n : Nat) : String :=
  let str := toString n
  if str.length < 3 then String.mk (List.replicate (3 - str.length) '0') ++ str
  else str

/-- Python's `str.startswith`, modelled on the character lists (Lean's
byte-based `String` prefix test does not reduce in the kernel). -/
def startswith (pfx o : String) : Bool :=
  pfx.data.isPrefixOf o.data

/-- `Viewer._next_label`: count the object ids starting with the given text;
the first object of a kind gets the bare text, later ones get
`<text>.<count+1, zero-padded to 3 digits>`. -/
def next_label (objIds : List String) (pfx : String) : String :=
  let existing := objIds.filter (fun o => startswith pfx o)
  if existing.length == 0 then pfx
  else pfx ++ "." ++ pad3 (existing.length + 1)

/-- The visual created for a mesh added through `add_mesh` (via `mesh2gfx`):
visible, unpinned, unhighlighted, with a material carrying the given color. -/
def mkMeshVisual (name : String) (c : Color) : Visual :=
  ⟨name, true, false, false, c, none, none, true⟩

/-- `Viewer._add_to_scene` (decorated with `@update_viewer`): append the
visual to the scene children, then run `update_helper`. -/
def add_to_scene (s : ViewerState) (v : Visual) : ViewerState :=
  update_helper { s with visuals := s.visuals ++ [v] }

/-- `Viewer.add_mesh` for a plain (non-`gfx.Mesh`, non-`tm.Scene`) mesh: when
no name is given, read `self.objects` (through the cache) inside
`_next_label("Mesh")`, tag the new visual with the resulting id, and add it to
the scene. -/
def add_mesh (s : ViewerState) (name : Option String) (c : Color) :
    ViewerState :=
  match name with
  | some n => add_to_scene s (mkMeshVisual n c)
  | none =>
    let p := getObjects s
    let n := next_label (p.1.map Prod.fst) "Mesh"
    add_to_scene p.2 (mkMeshVisual n c)

/-! ## The animation loop (`Viewer._animate`, `add_animation`,
`remove_animation`)

`Viewer._animations` is a dict keyed by the callback functions.  Python
objects that can end up in `_animations_flagged_for_removal` are either
callbacks (`remove_animation`) or plain ints (the `enumerate` index appended
by `_animate`'s error branch); `PyKey` covers both. -/

inductive PyKey : Type
  | func (n : Nat)
  | int (n : Nat)
deriving DecidableEq, Repr

inductive OnErr : Type
  | remove
  | ignoreErr
  | raiseErr
deriving DecidableEq, Repr

structure AnimOpts where
  on_error : OnErr
  run_every : Option Nat
  req_render : Bool
deriving DecidableEq, Repr

structure AnimState where
  animations : List (PyKey × AnimOpts)
  flagged : List PyKey
  counter : Nat
  renderStale : Bool
deriving DecidableEq, Repr

/-- What escapes `Viewer._animate`: a callback exception re-raised under
policy `"raise"`, or the `KeyError` from `self._animations.pop(f)` when `f` is
not a key of the dict. -/
inductive AnimError : Type
  | userErr (k : PyKey)
  | keyErr (k : PyKey)
deriving DecidableEq, Repr

/-- `Viewer.add_animation`: callbacks must be callable (so every dict key is a
function), and registration is a plain dict assignment. -/
def add_animation (s : AnimState) (f : Nat) (opts : AnimOpts) : AnimState :=
  { s with animations := dictInsert s.animations (.func f) opts }

/-- `Viewer.remove_animation`: flag the callback itself for removal; an int
argument is translated to the function at that index first (an out-of-range
index raises `IndexError` in Python and is not modelled). -/
def remove_animation (s : AnimState) (x : PyKey) : AnimState :=
  match x with
  | .func n => { s with flagged := s.flagged ++ [PyKey.func n] }
  | .int n =>
    match (s.animations.map Prod.fst)[n]? with
    | some k => { s with flagged := s.flagged ++ [k] }
    | none => s

/-- The callback loop of `Viewer._animate` over
`enumerate(list(self._animations.items()))`: skip entries whose `run_every`
does not divide the frame counter; run the callback (`behavior n = true` means
the callback raises this frame); re-raise under policy `"raise"`; under policy
`"remove"` append the `enumerate` index `i` — an int, not the function — to
the flagged list; set `_render_stale` after a successful run when
`req_render`. -/
def animateLoop (behavior : Nat → Bool) :
    List (Nat × (PyKey × AnimOpts)) → AnimState → Except AnimError AnimState
  | [], s => .ok s
  | (i, (k, opts)) :: rest, s =>
    let skip := match opts.run_every with
      | some n => !(n == 0) && !(s.counter % n == 0)
      | none => false
    if skip then animateLoop behavior rest s
    else
      let raises := match k with
        | .func n => behavior n
        | .int _ => false
      if raises then
        match opts.on_error with
        | .raiseErr => .error (.userErr k)
        | .remove =>
          animateLoop behavior rest { s with flagged := s.flagged ++ [PyKey.int i] }
        | .ignoreErr => animateLoop behavior rest s
      else
        animateLoop behavior rest
          (if opts.req_render then { s with renderStale := true } else s)

/-- The pruning loop of `Viewer._animate`: for each flagged item (in reversed
order), `self._animations.pop(f)` — which raises `KeyError` when `f` is not a
key of the dict. -/
def pruneFlagged :
    List PyKey → List (PyKey × AnimOpts) →
    Except AnimError (List (PyKey × AnimOpts))
  | [], d => .ok d
  | k :: rest, d =>
    if d.any (fun p => p.1 == k) then
      pruneFlagged rest (d.filter (fun p => !(p.1 == k)))
    else
      .error (.keyErr k)

def sysMaxsize : Nat := 9223372036854775807

/-- `Viewer._animate` up to and including the flagged-removal step (the
subsequent render-trigger branch and `renderer.render` calls are external):
bump the frame counter (resetting at `sys.maxsize`), run the callback loop,
then pop every flagged entry and clear the flag list. -/
def animate (s : AnimState) (behavior : Nat → Bool) :
    Except AnimError AnimState :=
  let c := if s.counter + 1 == sysMaxsize then 0 else s.counter + 1
  let s := { s with counter := c }
  match animateLoop behavior s.animations.enum s with
  | .error e => .error e
  | .ok s1 =>
    match pruneFlagged s1.flagged.reverse s1.animations with
    | .error e => .error e
    | .ok d => .ok { s1 with animations := d, flagged := [] }

/-! ## The selection gizmo's pointer-move step (`selection.py`) -/

/-- A world-space position; only x and y matter to the rectangle. -/
structure Pt where
  x : Int
  y : Int
deriving DecidableEq, Repr

structure GizmoState where
  force_square : Bool
  disable : Bool
  active : Bool
  sel_start : Pt
  sel_end : Pt
  visible : Bool
deriving DecidableEq, Repr

inductive GizmoError : Type
  | attributeErr
deriving DecidableEq, Repr

/-- `BaseSelectionGizmo._selection_move`: a pointer outside the viewport
(`_screen_to_world` returned `None`) is ignored; otherwise, when
`force_square` is set, line 358 evaluates `self._sel["start"]` — but the gizmo
has no attribute `_sel` (the drag coordinates live in `_sel_info`), so Python
raises `AttributeError` before the sign-preserving width==height clamp on
lines 359–361 can run; without `force_square` the new far corner is stored as
`_sel_info["end"]` (the outline/fill geometry updates are external pygfx
buffers). -/
def selection_move (g : GizmoState) (world_pos : Option Pt) :
    Except GizmoError GizmoState :=
  match world_pos with
  | none => .ok g
  | some p =>
    if g.force_square then .error .attributeErr
    else .ok { g with sel_end := p }

/-- The `pointer_move` branch of `BaseSelectionGizmo._process_event`: ignored
while the gizmo is administratively disabled or no drag is active. -/
def process_pointer_move (g : GizmoState) (world_pos : Option Pt) :
    Except GizmoError GizmoState :=
  if g.disable then .ok g
  else if g.active then selection_move g world_pos
  else .ok g

/-! ## Lemmas about `get_converter` and the registry dict -/

theorem get_converter_cons_of_match {K V H : Type} (dyn : PyDyn K V) (k : K)
    (v : H) (rest : List (K × H)) (t : V) (rm : Bool)
    (h : entryMatches dyn k t = true) :
    get_converter dyn ((k, v) :: rest) t rm = .found v := by
  cases hc1 : (dyn.isHashable t && dyn.pyEq t k) <;>
  cases hc2 : dyn.typeEq t k <;>
  cases hc3 : (dyn.isType k && dyn.isInst t k) <;>
  cases hc4 : (dyn.isCallable k && isTrueOutcome (dyn.callOutcome k t)) <;>
    simp_all [get_converter, entryMatches]

theorem get_converter_cons_of_not_match {K V H : Type} (dyn : PyDyn K V)
    (k : K) (v : H) (rest : List (K × H)) (t : V) (rm : Bool)
    (h : entryMatches dyn k t = false) :
    get_converter dyn ((k, v) :: rest) t rm = get_converter dyn rest t rm := by
  simp only [entryMatches, Bool.or_eq_false_iff] at h
  obtain ⟨⟨⟨h1, h2⟩, h3⟩, h4⟩ := h
  simp [get_converter, h1, h2, h3, h4]

theorem get_converter_find_spec {K V H : Type} (dyn : PyDyn K V)
    (d : List (K × H)) (t : V) (rm : Bool) :
    get_converter dyn d t rm =
      match d.find? (fun p => entryMatches dyn p.1 t) with
      | some p => ConvResult.found p.2
      | none => if rm then ConvResult.noConverterError t else ConvResult.noneFound := by
  induction d with
  | nil => cases rm <;> rfl
  | cons p rest ih =>
    obtain ⟨k, v⟩ := p
    by_cases h : entryMatches dyn k t = true
    · rw [get_converter_cons_of_match dyn k v rest t rm h]
      simp [List.find?, h]
    · rw [get_converter_cons_of_not_match dyn k v rest t rm
        (Bool.not_eq_true _ ▸ h), ih]
      simp only [List.find?]
      rw [Bool.not_eq_true] at h
      simp [h]

theorem get_converter_append_unmatched {K V H : Type} (dyn : PyDyn K V)
    (d1 rest : List (K × H)) (t : V) (rm : Bool)
    (h : ∀ p ∈ d1, entryMatches dyn p.1 t = false) :
    get_converter dyn (d1 ++ rest) t rm = get_converter dyn rest t rm := by
  induction d1 with
  | nil => rfl
  | cons q d1' ih =>
    rw [List.cons_append,
      get_converter_cons_of_not_match dyn q.1 q.2 _ t rm (h q (by simp))]
    exact ih fun p hp => h p (by simp [hp])

theorem any_keys_eq_false {K V : Type} [BEq K] [LawfulBEq K]
    (d : List (K × V)) (k : K) (h : k ∉ d.map Prod.fst) :
    (d.any fun p => p.1 == k) = false := by
  rw [List.any_eq_false]
  intro p hp
  simp only [beq_iff_eq]
  exact fun he => h (List.mem_map.mpr ⟨p, hp, he⟩)

theorem any_keys_eq_true {K V : Type} [BEq K] [LawfulBEq K]
    (d : List (K × V)) (k : K) (h : k ∈ d.map Prod.fst) :
    (d.any fun p => p.1 == k) = true := by
  rw [List.any_eq_true]
  obtain ⟨p, hp, he⟩ := List.mem_map.mp h
  exact ⟨p, hp, by simp [he]⟩

theorem foldl_dictInsert_fresh {K V : Type} [BEq K] [LawfulBEq K] :
    ∀ (d acc : List (K × V)),
      (∀ p ∈ d, p.1 ∉ acc.map Prod.fst) → (d.map Prod.fst).Nodup →
      d.foldl (fun a p => dictInsert a p.1 p.2) acc = acc ++ d
  | [], acc, _, _ => by simp
  | (a, x) :: d', acc, hfresh, hnd => by
    have hstep : dictInsert acc a x = acc ++ [(a, x)] := by
      rw [dictInsert, any_keys_eq_false acc a (hfresh (a, x) (by simp))]
      simp
    have hnd' : (d'.map Prod.fst).Nodup := by
      simpa using (List.nodup_cons.mp (by simpa using hnd)).2
    have hne : ∀ p ∈ d', p.1 ≠ a := by
      intro p hp he
      have : a ∈ d'.map Prod.fst := List.mem_map.mpr ⟨p, hp, he⟩
      exact (List.nodup_cons.mp (by simpa using hnd)).1 this
    have hfresh' : ∀ p ∈ d', p.1 ∉ (acc ++ [(a, x)]).map Prod.fst := by
      intro p hp
      rw [List.map_append, List.mem_append]
      rintro (hmem | hmem)
      · exact hfresh p (by simp [hp]) hmem
      · exact hne p hp (by simpa using hmem)
    calc ((a, x) :: d').foldl (fun a p => dictInsert a p.1 p.2) acc
        = d'.foldl (fun a p => dictInsert a p.1 p.2) (acc ++ [(a, x)]) := by
          rw [List.foldl_cons, hstep]
      _ = acc ++ [(a, x)] ++ d' := foldl_dictInsert_fresh d' _ hfresh' hnd'
      _ = acc ++ (a, x) :: d' := by simp

theorem map_update_fresh {K V : Type} [BEq K] [LawfulBEq K]
    (d : List (K × V)) (k : K) (v' : V) (h : k ∉ d.map Prod.fst) :
    d.map (fun p => if p.1 == k then (p.1, v') else p) = d := by
  induction d with
  | nil => rfl
  | cons q d' ih =>
    have hq : ¬(q.1 == k) = true := by
      simp only [beq_iff_eq]
      exact fun he => h (by simp [he])
    have h' : k ∉ d'.map Prod.fst := fun hm => h (by simp [hm])
    simp [hq, ih h']

theorem dictInsert_update {K V : Type} [BEq K] [LawfulBEq K]
    (d1 d2 : List (K × V)) (k : K) (v v' : V)
    (h1 : k ∉ d1.map Prod.fst) (h2 : k ∉ d2.map Prod.fst) :
    dictInsert (d1 ++ (k, v) :: d2) k v' = d1 ++ (k, v') :: d2 := by
  have hany : ((d1 ++ (k, v) :: d2).any fun p => p.1 == k) = true := by
    apply any_keys_eq_true
    simp
  rw [dictInsert, if_pos hany, List.map_append, List.map_cons]
  rw [map_update_fresh d1 k v' h1, map_update_fresh d2 k v' h2]
  simp

/-! ## Claim theorems for the conversion registry -/

/-- C5: converter resolution scans the registry front-to-back and returns the
handler of the first entry matching the probed value, where an entry matches
exactly when the hashable value `==` the matcher, the value's type equals the
matcher, the value is an instance of a type matcher, or a callable matcher
returns exactly the object `True` on the value (an exception from the
predicate counts as a non-match, and a merely-truthy return does not match);
with no matching entry, probe mode returns `None` and the raising mode raises
the no-converter error carrying the value. -/
theorem get_converter_resolution {K V H : Type} (dyn : PyDyn K V)
    (d : List (K × H)) (t : V) (rm : Bool) :
    get_converter dyn d t rm =
      match d.find? (fun p => entryMatches dyn p.1 t) with
      | some p => ConvResult.found p.2
      | none => if rm then ConvResult.noConverterError t else ConvResult.noneFound :=
  get_converter_find_spec dyn d t rm

/-- C10: a 2-dimensional numpy array with exactly 3 columns always resolves to
the points handler `points2gfx` (never `lines2gfx`), and the built-in
predicates `is_points` and `is_lines` accept exactly the same inputs. -/
theorem ndarray_3col_resolves_points :
    (∀ r : Nat,
      get_converter octDyn CONVERTERS (PV.ndarray [r, 3]) true
        = ConvResult.found Handler.points2gfx)
    ∧ (∀ v : PV, is_points v = is_lines v) := by
  constructor
  · intro r
    rfl
  · intro v
    cases v <;> rfl

/-- Dynamics for the duplicate-registration counterexample: a single matcher
key (a predicate function, so hashable and callable) whose predicate returns
`True` on every value. -/
def unitDyn : PyDyn Nat Unit where
  isHashable := fun _ => true
  pyEq := fun _ _ => false
  typeEq := fun _ _ => false
  isType := fun _ => false
  isInst := fun _ _ => false
  isCallable := fun _ => true
  callOutcome := fun _ _ => .returnsTrue

/-- C2 counterexample: starting from a registry holding matcher `0` with
handler `1`, registering handler `2` for the same matcher does NOT yield two
entries — the dict collapses the key to one entry.  Moreover, with
`insert='first'` resolution yields the ORIGINAL handler `1` (not the new one),
and with `insert='last'` it yields the NEW handler `2` (not the original) —
the opposite of the claim in both directions. -/
theorem register_duplicate_cex :
    (register_converter [((0 : Nat), (1 : Nat))] 0 2 .first).length = 1
    ∧ ¬(register_converter [((0 : Nat), (1 : Nat))] 0 2 .first).length = 2
    ∧ get_converter unitDyn (register_converter [((0 : Nat), (1 : Nat))] 0 2 .first)
        () false = .found 1
    ∧ ¬get_converter unitDyn (register_converter [((0 : Nat), (1 : Nat))] 0 2 .first)
        () false = .found 2
    ∧ get_converter unitDyn (register_converter [((0 : Nat), (1 : Nat))] 0 2 .last)
        () false = .found 2
    ∧ ¬get_converter unitDyn (register_converter [((0 : Nat), (1 : Nat))] 0 2 .last)
        () false = .found 1 := by
  decide

/-- C2 (amended): registering a second handler for an already-registered
matcher leaves the registry with a single entry for that matcher (the dict
de-duplicates keys).  With position `'first'` the entry moves to the front but
keeps the ORIGINAL handler (the new one is discarded by `dict(items)` keeping
the last value for a duplicated key); with position `'last'` the entry keeps
its place but its handler is replaced by the NEW one.  Consequently, for a
value matched by that matcher and by no other entry, resolution returns the
original handler after a `'first'` duplicate registration and the new handler
after a `'last'` one. -/
theorem register_duplicate_thm {K V H : Type} [BEq K] [LawfulBEq K]
    (dyn : PyDyn K V) (t : V) (d1 d2 : List (K × H)) (k : K) (h h' : H)
    (hnd : (((d1 ++ (k, h) :: d2)).map Prod.fst).Nodup)
    (hmatch : entryMatches dyn k t = true)
    (honly : ∀ p ∈ d1 ++ (k, h) :: d2, entryMatches dyn p.1 t = true → p.1 = k) :
    register_converter (d1 ++ (k, h) :: d2) k h' .first = (k, h) :: (d1 ++ d2)
    ∧ register_converter (d1 ++ (k, h) :: d2) k h' .last = d1 ++ (k, h') :: d2
    ∧ (register_converter (d1 ++ (k, h) :: d2) k h' .first).length
        = (d1 ++ (k, h) :: d2).length
    ∧ (register_converter (d1 ++ (k, h) :: d2) k h' .last).length
        = (d1 ++ (k, h) :: d2).length
    ∧ get_converter dyn (register_converter (d1 ++ (k, h) :: d2) k h' .first)
        t false = .found h
    ∧ get_converter dyn (register_converter (d1 ++ (k, h) :: d2) k h' .last)
        t false = .found h' := by
  have hmap : (d1 ++ (k, h) :: d2).map Prod.fst
      = d1.map Prod.fst ++ k :: d2.map Prod.fst := by simp
  rw [hmap] at hnd
  have hk1 : k ∉ d1.map Prod.fst := by
    intro hmem
    exact (List.disjoint_of_nodup_append hnd) hmem (by simp)
  have hk2 : k ∉ d2.map Prod.fst :=
    (List.nodup_cons.mp (List.Nodup.of_append_right hnd)).1
  have hnd1 : (d1.map Prod.fst).Nodup := List.Nodup.of_append_left hnd
  have hnd2 : (d2.map Prod.fst).Nodup :=
    (List.nodup_cons.mp (List.Nodup.of_append_right hnd)).2
  have hdisj : ∀ a ∈ d2.map Prod.fst, a ∉ d1.map Prod.fst := by
    intro a ha hmem
    exact (List.disjoint_of_nodup_append hnd) hmem (by simp [ha])
  -- structure of the 'first' registration
  have hfirst : register_converter (d1 ++ (k, h) :: d2) k h' .first
      = (k, h) :: (d1 ++ d2) := by
    show dictFromItems ((k, h') :: (d1 ++ (k, h) :: d2)) = (k, h) :: (d1 ++ d2)
    rw [dictFromItems, List.foldl_cons]
    have hbase : dictInsert ([] : List (K × H)) k h' = [(k, h')] := rfl
    rw [hbase, List.foldl_append]
    have hstep1 : d1.foldl (fun a p => dictInsert a p.1 p.2) [(k, h')]
        = [(k, h')] ++ d1 := by
      apply foldl_dictInsert_fresh
      · intro p hp
        simp only [List.map_cons, List.map_nil, List.mem_singleton]
        intro he
        exact hk1 (List.mem_map.mpr ⟨p, hp, he⟩)
      · exact hnd1
    rw [hstep1, List.foldl_cons]
    have hmid : dictInsert ([(k, h')] ++ d1) k h = (k, h) :: d1 := by
      have := dictInsert_update ([] : List (K × H)) d1 k h' h (by simp) hk1
      simpa using this
    rw [hmid]
    have hstep2 : d2.foldl (fun a p => dictInsert a p.1 p.2) ((k, h) :: d1)
        = ((k, h) :: d1) ++ d2 := by
      apply foldl_dictInsert_fresh
      · intro p hp
        simp only [List.map_cons, List.mem_cons]
        rintro (he | he)
        · exact hk2 (List.mem_map.mpr ⟨p, hp, he⟩)
        · exact hdisj p.1 (List.mem_map.mpr ⟨p, hp, rfl⟩) he
      · exact hnd2
    rw [hstep2]
    simp
  -- structure of the 'last' registration
  have hlast : register_converter (d1 ++ (k, h) :: d2) k h' .last
      = d1 ++ (k, h') :: d2 :=
    dictInsert_update d1 d2 k h h' hk1 hk2
  have hres1 : get_converter dyn ((k, h) :: (d1 ++ d2)) t false = .found h :=
    get_converter_cons_of_match dyn k h _ t false hmatch
  have hunmatched : ∀ p ∈ d1, entryMatches dyn p.1 t = false := by
    intro p hp
    by_cases hm : entryMatches dyn p.1 t = true
    · exact absurd (honly p (by simp [hp]) hm)
        (fun he => hk1 (List.mem_map.mpr ⟨p, hp, he⟩))
    · simpa using hm
  have hres2 : get_converter dyn (d1 ++ (k, h') :: d2) t false = .found h' := by
    rw [get_converter_append_unmatched dyn d1 _ t false hunmatched]
    exact get_converter_cons_of_match dyn k h' _ t false hmatch
  refine ⟨hfirst, hlast, ?_, ?_, ?_, ?_⟩
  · rw [hfirst]
    simp only [List.length_cons, List.length_append]
    omega
  · rw [hlast]
    simp only [List.length_cons, List.length_append]
  · rw [hfirst]; exact hres1
  · rw [hlast]; exact hres2

/-- Witness for the amended C2 theorem at a concrete registry. -/
theorem register_duplicate_thm_witness :
    register_converter [((0 : Nat), (1 : Nat))] 0 2 .first = [(0, 1)]
    ∧ register_converter [((0 : Nat), (1 : Nat))] 0 2 .last = [(0, 2)]
    ∧ (register_converter [((0 : Nat), (1 : Nat))] 0 2 .first).length = 1
    ∧ (register_converter [((0 : Nat), (1 : Nat))] 0 2 .last).length = 1
    ∧ get_converter unitDyn (register_converter [((0 : Nat), (1 : Nat))] 0 2 .first)
        () false = .found 1
    ∧ get_converter unitDyn (register_converter [((0 : Nat), (1 : Nat))] 0 2 .last)
        () false = .found 2 := by
  have := register_duplicate_thm unitDyn () ([] : List (Nat × Nat)) [] 0 1 2
    (by decide) (by decide) (by decide)
  simpa using this

/-! ## Lemmas about the mutation engine -/

theorem getObjects_cache (s : ViewerState) :
    (getObjects s).2.cache = some (getObjects s).1 := by
  cases hc : s.cache <;> simp [getObjects, hc]

theorem getObjects_visuals (s : ViewerState) :
    (getObjects s).2.visuals = s.visuals := by
  cases hc : s.cache <;> simp [getObjects, hc]

theorem getObjects_renderStale (s : ViewerState) :
    (getObjects s).2.renderStale = s.renderStale := by
  cases hc : s.cache <;> simp [getObjects, hc]

theorem getObjects_selected (s : ViewerState) :
    (getObjects s).2.selected = s.selected := by
  cases hc : s.cache <;> simp [getObjects, hc]

theorem mapGroup_getElem? (vs : List Visual) (ob : String) (f : Visual → Visual)
    (i : Nat) :
    (mapGroup vs ob f)[i]?
      = vs[i]?.map (fun v => if v.object_id == ob then f v else v) := by
  simp [mapGroup]

theorem applyGroups_getElem?_fix (objs : Objects) (f : Visual → Visual)
    (i : Nat) (v : Visual) (hf : f v = v) :
    ∀ (ids : List String) (vs : List Visual),
      vs[i]? = some v → (applyGroups objs f ids vs)[i]? = some v := by
  intro ids
  induction ids with
  | nil =>
    intro vs hv
    simpa [applyGroups] using hv
  | cons ob rest ih =>
    intro vs hv
    rw [applyGroups]
    cases hp : (objs.any fun p => p.1 == ob) with
    | false => simpa [hp] using ih vs hv
    | true =>
      simp only [hp, if_true]
      apply ih
      rw [mapGroup_getElem?, hv]
      simp [hf]

theorem applyGroupsE_fst_getElem?_fix (objs : Objects) (f : Visual → Visual)
    (i : Nat) (v : Visual) (hf : f v = v) :
    ∀ (ids : List String) (vs : List Visual),
      vs[i]? = some v → (applyGroupsE objs f ids vs).1[i]? = some v := by
  intro ids
  induction ids with
  | nil =>
    intro vs hv
    simpa [applyGroupsE] using hv
  | cons ob rest ih =>
    intro vs hv
    rw [applyGroupsE]
    cases hp : (objs.any fun p => p.1 == ob) with
    | false => simpa [hp] using hv
    | true =>
      simp only [hp, if_true]
      apply ih
      rw [mapGroup_getElem?, hv]
      simp [hf]

theorem applyColorGroups_getElem?_fix (cmap : List (String × Color)) (i : Nat)
    (v : Visual) (hf : ∀ c, colorV c v = v) :
    ∀ (objs : Objects) (vs : List Visual),
      vs[i]? = some v → (applyColorGroups cmap objs vs)[i]? = some v := by
  intro objs
  induction objs with
  | nil =>
    intro vs hv
    simpa [applyColorGroups] using hv
  | cons q rest ih =>
    intro vs hv
    rw [applyColorGroups]
    cases hlook : (cmap.find? fun p => p.1 == q.1).map Prod.snd with
    | none => simpa [hlook] using ih vs hv
    | some c =>
      simp only [hlook]
      apply ih
      rw [mapGroup_getElem?, hv]
      simp [hf]

/-! ## Claim theorems for pinning and invalidation -/

/-- State for the pinned-selection counterexample: one visible, PINNED visual
with id `"A"` and material color `0`; the viewer's highlight color is `1`; no
current selection. -/
def pinSelState : ViewerState :=
  ⟨[⟨"A", true, true, false, 0, none, none, true⟩], [], none, false, 1⟩

/-- C1 counterexample: assigning the selection set recolors even a PINNED
primitive.  In `pinSelState` the only visual is pinned with color `0`, yet
after `viewer.selected = ["A"]` its material color is the highlight color `1`
— the `selected` setter has no pin check, so the claim's list of
pin-respecting operations is wrong about selection assignment. -/
theorem selected_setter_pin_cex :
    pinSelState.visuals.map Visual.pinned = [true]
    ∧ pinSelState.visuals.map Visual.color = [0]
    ∧ (set_selected pinSelState ["A"]).visuals.map Visual.color = [1]
    ∧ ¬(set_selected pinSelState ["A"]).visuals.map Visual.color
        = pinSelState.visuals.map Visual.color := by
  refine ⟨rfl, rfl, rfl, ?_⟩
  decide

/-- C1 (amended): for every pinned primitive, `hide`, `unhide`, `set_colors`,
`highlight` and `unhighlight` addressed at any ids leave the primitive
entirely unchanged (in particular its `visible` flag and material color),
until it is explicitly unpinned; assignment of the selection set, however,
does NOT skip pinned primitives (see the counterexample). -/
theorem pinned_objects_skipped (s : ViewerState) (ids hids : List String)
    (oids uids : Option (List String)) (c : ColorSpec) (hl : Color → Color)
    (i : Nat) (v : Visual) (hv : s.visuals[i]? = some v)
    (hp : v.pinned = true) :
    (hide_objects s ids).visuals[i]? = some v
    ∧ (unhide_objects s oids).visuals[i]? = some v
    ∧ (set_colors s c).visuals[i]? = some v
    ∧ (highlight_objects s hids hl).state.visuals[i]? = some v
    ∧ (unhighlight_objects s uids).state.visuals[i]? = some v := by
  have hv' : (getObjects s).2.visuals[i]? = some v := by
    rw [getObjects_visuals]; exact hv
  refine ⟨?_, ?_, ?_, ?_, ?_⟩
  · exact applyGroups_getElem?_fix _ hideV i v (by simp [hideV, hp]) ids _ hv'
  · exact applyGroups_getElem?_fix _ unhideV i v (by simp [unhideV, hp]) _ _ hv'
  · exact applyColorGroups_getElem?_fix _ i v (fun c => by simp [colorV, hp]) _ _ hv'
  · exact applyGroupsE_fst_getElem?_fix _ (highlightV hl) i v
      (by simp [highlightV, hp]) hids _ hv'
  · cases uids with
    | none =>
      show ((getObjects s).2.visuals.map unhighlightV)[i]? = some v
      rw [List.getElem?_map, hv']
      simp [unhighlightV, hp]
    | some l =>
      exact applyGroupsE_fst_getElem?_fix _ unhighlightV i v
        (by simp [unhighlightV, hp]) l _ hv'

/-- Witness for the amended C1 theorem: the pinned visual of `pinSelState` is
untouched by all five pin-respecting operations. -/
theorem pinned_objects_skipped_witness :
    (hide_objects pinSelState ["A"]).visuals[0]?
        = some ⟨"A", true, true, false, 0, none, none, true⟩
    ∧ (unhide_objects pinSelState (some ["A"])).visuals[0]?
        = some ⟨"A", true, true, false, 0, none, none, true⟩
    ∧ (set_colors pinSelState (.single 5)).visuals[0]?
        = some ⟨"A", true, true, false, 0, none, none, true⟩
    ∧ (highlight_objects pinSelState ["A"] (fun c => c + 1)).state.visuals[0]?
        = some ⟨"A", true, true, false, 0, none, none, true⟩
    ∧ (unhighlight_objects pinSelState none).state.visuals[0]?
        = some ⟨"A", true, true, false, 0, none, none, true⟩ :=
  pinned_objects_skipped pinSelState ["A"] ["A"] (some ["A"]) none (.single 5)
    (fun c => c + 1) 0 ⟨"A", true, true, false, 0, none, none, true⟩ rfl rfl

/-- State for the pin-invalidation counterexample: one unpinned visual with id
`"A"`, an invalidated cache, and a clean (non-stale) render flag. -/
def pinInvState : ViewerState :=
  ⟨[⟨"A", true, false, false, 0, none, none, true⟩], [], none, false, 1⟩

/-- C4 counterexample: `pin_objects` neither invalidates the object index nor
sets the needs-redraw flag — starting from a clean state, pinning leaves
`_render_stale` at `False` and actually POPULATES the cache (its `objects`
read fills the `lru_cache` slot, and nothing clears it). -/
theorem pin_objects_no_invalidate_cex :
    (pin_objects pinInvState ["A"]).renderStale = false
    ∧ ¬(pin_objects pinInvState ["A"]).renderStale = true
    ∧ (pin_objects pinInvState ["A"]).cache
        = some [("A", [⟨"A", true, false, false, 0, none, none, true⟩])]
    ∧ ¬(pin_objects pinInvState ["A"]).cache = none := by
  refine ⟨rfl, ?_, rfl, ?_⟩ <;> decide

/-- C4 (amended): `hide`, `unhide`, `set_colors` and selection assignment each
invalidate the cached object index and set the needs-redraw flag before
returning; `pin`, `unpin`, `highlight` and `unhighlight` do neither — they
leave the flag untouched and leave the cache filled with the snapshot their
own `objects` read produced. -/
theorem mutators_invalidation (s : ViewerState) (ids hids : List String)
    (oids uids puids : Option (List String)) (c : ColorSpec)
    (val : List String) (hl : Color → Color) :
    ((hide_objects s ids).cache = none
      ∧ (hide_objects s ids).renderStale = true)
    ∧ ((unhide_objects s oids).cache = none
      ∧ (unhide_objects s oids).renderStale = true)
    ∧ ((set_colors s c).cache = none
      ∧ (set_colors s c).renderStale = true)
    ∧ ((set_selected s val).cache = none
      ∧ (set_selected s val).renderStale = true)
    ∧ ((pin_objects s ids).cache = some (getObjects s).1
      ∧ (pin_objects s ids).renderStale = s.renderStale)
    ∧ ((unpin_objects s puids).cache = some (getObjects s).1
      ∧ (unpin_objects s puids).renderStale = s.renderStale)
    ∧ ((highlight_objects s hids hl).state.cache = some (getObjects s).1
      ∧ (highlight_objects s hids hl).state.renderStale = s.renderStale)
    ∧ ((unhighlight_objects s uids).state.cache = some (getObjects s).1
      ∧ (unhighlight_objects s uids).state.renderStale = s.renderStale) := by
  refine ⟨⟨rfl, rfl⟩, ⟨rfl, rfl⟩, ⟨rfl, rfl⟩, ⟨rfl, rfl⟩, ?_, ?_, ?_, ?_⟩
  · exact ⟨getObjects_cache s, getObjects_renderStale s⟩
  · exact ⟨getObjects_cache s, getObjects_renderStale s⟩
  · exact ⟨getObjects_cache s, getObjects_renderStale s⟩
  · cases uids with
    | none => exact ⟨getObjects_cache s, getObjects_renderStale s⟩
    | some l => exact ⟨getObjects_cache s, getObjects_renderStale s⟩

/-! ## Claim theorems for the selection setter -/

theorem filter_not_mem_self (val : List String) :
    val.filter (fun x => !decide (x ∈ val)) = [] := by
  rw [List.filter_eq_nil_iff]
  intro a ha
  simp [ha]

theorem set_selected_fixpoint (vs : List Visual) (hc : Color)
    (val : List String) :
    set_selected ⟨vs, val, none, true, hc⟩ val = ⟨vs, val, none, true, hc⟩ := by
  simp [set_selected, getObjects, update_helper, filter_not_mem_self]

/-- State for the selection-toggle counterexample: one unpinned visual with id
`"A"` and material color `0`; highlight color `1`. -/
def selState : ViewerState :=
  ⟨[⟨"A", true, false, false, 0, none, none, true⟩], [], none, false, 1⟩

/-- C3 counterexample: assigning `["A"]` to the selection twice in a row does
NOT toggle the id out.  After the second assignment the selection is still
`["A"]` (not empty) and the primitive still carries the highlight color `1`
(its original color `0` is not restored). -/
theorem selected_toggle_cex :
    (set_selected (set_selected selState ["A"]) ["A"]).selected = ["A"]
    ∧ ¬(set_selected (set_selected selState ["A"]) ["A"]).selected = []
    ∧ (set_selected (set_selected selState ["A"]) ["A"]).visuals.map Visual.color
        = [1]
    ∧ ¬(set_selected (set_selected selState ["A"]) ["A"]).visuals.map Visual.color
        = selState.visuals.map Visual.color := by
  refine ⟨rfl, ?_, rfl, ?_⟩ <;> decide

/-- C3 (amended): assigning the selection set is idempotent — re-assigning the
current selection changes nothing (same selection list, same visuals, same
cache/stale flags); in particular an id selected twice in a row stays selected
with the highlight color applied.  The set-symmetric-difference toggle of
interactive clicks is computed by the pointer-event handler
(`handle_object_event`) before it assigns the setter, not by the setter
itself. -/
theorem set_selected_idem (s : ViewerState) (val : List String) :
    set_selected (set_selected s val) val = set_selected s val := by
  have key : ∀ t : ViewerState, t.selected = val → t.cache = none →
      t.renderStale = true → set_selected t val = t := by
    intro t h1 h2 h3
    obtain ⟨tv, tsel, tc, tr, th⟩ := t
    replace h1 : tsel = val := h1
    replace h2 : tc = none := h2
    replace h3 : tr = true := h3
    subst h1
    subst h2
    subst h3
    exact set_selected_fixpoint tv th _
  exact key _ rfl rfl rfl

/-! ## Claim theorems for highlight/unhighlight -/

/-- The per-visual effect of running the group loop over a list of ids. -/
def chainF (f : Visual → Visual) (P : List String) (w : Visual) : Visual :=
  P.foldl (fun w ob => if w.object_id == ob then f w else w) w

theorem chainF_cons (f : Visual → Visual) (ob : String) (P : List String)
    (w : Visual) :
    chainF f (ob :: P) w = chainF f P (if w.object_id == ob then f w else w) :=
  rfl

theorem getObjects_of_some (s : ViewerState) (o : Objects)
    (h : s.cache = some o) : getObjects s = (o, s) := by
  simp [getObjects, h]

theorem applyGroupsE_fst_eq (objs : Objects) (f : Visual → Visual) :
    ∀ (ids : List String) (vs : List Visual),
      (applyGroupsE objs f ids vs).1
        = (ids.takeWhile fun ob => objs.any fun p => p.1 == ob).foldl
            (fun vs ob => mapGroup vs ob f) vs := by
  intro ids
  induction ids with
  | nil => intro vs; rfl
  | cons ob rest ih =>
    intro vs
    rw [applyGroupsE]
    cases hp : (objs.any fun p => p.1 == ob) with
    | false => simp [List.takeWhile_cons, hp]
    | true => simp [List.takeWhile_cons, hp, ih]

theorem foldl_mapGroup_getElem? (f : Visual → Visual) (i : Nat) :
    ∀ (P : List String) (vs : List Visual),
      (P.foldl (fun vs ob => mapGroup vs ob f) vs)[i]?
        = vs[i]?.map (chainF f P) := by
  intro P
  induction P with
  | nil =>
    intro vs
    cases hv : vs[i]? <;> simp [chainF, hv]
  | cons ob P' ih =>
    intro vs
    rw [List.foldl_cons, ih, mapGroup_getElem?]
    cases hv : vs[i]? with
    | none => simp
    | some v => simp [chainF, List.foldl_cons]

theorem chainF_fix (f : Visual → Visual) (w : Visual) (hfw : f w = w) :
    ∀ P : List String, chainF f P w = w := by
  intro P
  induction P with
  | nil => rfl
  | cons ob P' ih =>
    have hstep : (if w.object_id == ob then f w else w) = w := by
      cases hm : w.object_id == ob <;> simp [hfw]
    rw [chainF_cons, hstep]
    exact ih

theorem highlightV_object_id (hl : Color → Color) (w : Visual) :
    (highlightV hl w).object_id = w.object_id := by
  rw [highlightV]
  cases hw : w.pinned <;> cases hh : w.highlighted <;> simp

theorem chainF_highlightV_object_id (hl : Color → Color) :
    ∀ (P : List String) (w : Visual),
      (chainF (highlightV hl) P w).object_id = w.object_id := by
  intro P
  induction P with
  | nil => intro w; rfl
  | cons ob P' ih =>
    intro w
    rw [chainF_cons]
    cases hm : w.object_id == ob with
    | false =>
      rw [if_neg (by simp [hm])]
      exact ih w
    | true =>
      rw [if_pos (by simp [hm])]
      rw [ih (highlightV hl w), highlightV_object_id]

theorem highlightV_of_highlighted (hl : Color → Color) (w : Visual)
    (hh : w.highlighted = true) : highlightV hl w = w := by
  rw [highlightV]
  cases hw : w.pinned <;> simp [hh]

theorem unhighlightV_of_not_highlighted (w : Visual)
    (hh : w.highlighted = false) : unhighlightV w = w := by
  rw [unhighlightV]
  cases hw : w.pinned <;> simp [hh]

theorem chain_roundtrip_color (hl : Color → Color) :
    ∀ (P : List String) (v : Visual), v.pinned = false →
      v.highlighted = false →
      (chainF unhighlightV P (chainF (highlightV hl) P v)).color = v.color := by
  intro P
  induction P with
  | nil => intro v _ _; rfl
  | cons ob P' ih =>
    intro v hp hh
    cases hm : v.object_id == ob with
    | false =>
      have h1 : chainF (highlightV hl) (ob :: P') v
          = chainF (highlightV hl) P' v := by
        rw [chainF_cons, if_neg (by simp [hm])]
      have hid : (chainF (highlightV hl) P' v).object_id = v.object_id :=
        chainF_highlightV_object_id hl P' v
      have h2 : chainF unhighlightV (ob :: P') (chainF (highlightV hl) P' v)
          = chainF unhighlightV P' (chainF (highlightV hl) P' v) := by
        rw [chainF_cons, if_neg (by simp [hid, hm])]
      rw [h1, h2]
      exact ih v hp hh
    | true =>
      have hw1 : highlightV hl v
          = { v with
              original_color := some v.color
              color := hl v.color
              highlighted := true } := by
        rw [highlightV]
        simp [hp, hh]
      have h1 : chainF (highlightV hl) (ob :: P') v
          = { v with
              original_color := some v.color
              color := hl v.color
              highlighted := true } := by
        rw [chainF_cons, if_pos (by simp [hm]), hw1]
        exact chainF_fix (highlightV hl) _
          (highlightV_of_highlighted hl _ rfl) P'
      have hu : unhighlightV
          { v with
            original_color := some v.color
            color := hl v.color
            highlighted := true }
          = { v with original_color := none, highlighted := false } := by
        rw [unhighlightV]
        simp [hp]
      have h2 : chainF unhighlightV (ob :: P')
          ({ v with
             original_color := some v.color
             color := hl v.color
             highlighted := true })
          = { v with original_color := none, highlighted := false } := by
        rw [chainF_cons, if_pos (by simp [hm]), hu]
        exact chainF_fix unhighlightV _
          (unhighlightV_of_not_highlighted _ rfl) P'
      rw [h1, h2]

/-- The content of the round-trip claim, stated over the reduced form the
operations take once the cache branch of `getObjects` is fixed. -/
theorem roundtrip_core (objs : Objects) (vs : List Visual) (ids : List String)
    (hl : Color → Color) (i : Nat) (v : Visual) (hv : vs[i]? = some v) :
    (v.pinned = false → v.highlighted = false →
      ((applyGroupsE objs unhighlightV ids
          (applyGroupsE objs (highlightV hl) ids vs).1).1[i]?).map Visual.color
        = some v.color)
    ∧ (v.highlighted = true →
      (applyGroupsE objs (highlightV hl) ids vs).1[i]? = some v)
    ∧ (v.highlighted = false →
      (applyGroupsE objs unhighlightV ids vs).1[i]? = some v) := by
  refine ⟨?_, ?_, ?_⟩
  · intro hp hh
    rw [applyGroupsE_fst_eq, applyGroupsE_fst_eq, foldl_mapGroup_getElem?,
      foldl_mapGroup_getElem?, hv]
    show some ((chainF unhighlightV _ (chainF (highlightV hl) _ v)).color)
        = some v.color
    exact congrArg some (chain_roundtrip_color hl _ v hp hh)
  · intro hh
    rw [applyGroupsE_fst_eq, foldl_mapGroup_getElem?, hv]
    show some (chainF (highlightV hl) _ v) = some v
    rw [chainF_fix (highlightV hl) v (highlightV_of_highlighted hl v hh)]
  · intro hh
    rw [applyGroupsE_fst_eq, foldl_mapGroup_getElem?, hv]
    show some (chainF unhighlightV _ v) = some v
    rw [chainF_fix unhighlightV v (unhighlightV_of_not_highlighted v hh)]

/-- C6: for an unpinned, not-already-highlighted primitive,
`highlight_objects` followed by `unhighlight_objects` over the same ids
restores the material color exactly to its pre-highlight value (the
unhighlight call reuses the snapshot the highlight call left in the cache, so
both process the same ids); highlighting an already-highlighted primitive
leaves it untouched, and unhighlighting a non-highlighted primitive leaves it
untouched. -/
theorem highlight_unhighlight_roundtrip (s : ViewerState) (ids : List String)
    (hl : Color → Color) (i : Nat) (v : Visual)
    (hv : s.visuals[i]? = some v) :
    (v.pinned = false → v.highlighted = false →
      ((unhighlight_objects (highlight_objects s ids hl).state
          (some ids)).state.visuals[i]?).map Visual.color = some v.color)
    ∧ (v.highlighted = true →
      (highlight_objects s ids hl).state.visuals[i]? = some v)
    ∧ (v.highlighted = false →
      (unhighlight_objects s (some ids)).state.visuals[i]? = some v) := by
  obtain ⟨vs, sel, cache, rs, hcl⟩ := s
  cases cache with
  | none => exact roundtrip_core (objectsOf vs) vs ids hl i v hv
  | some o => exact roundtrip_core o vs ids hl i v hv

/-- State for the round-trip witness: one unpinned, unhighlighted visual with
color `5`. -/
def rtState : ViewerState :=
  ⟨[⟨"A", true, false, false, 5, none, none, true⟩], [], none, false, 9⟩

/-- State for the no-op part of the round-trip witness: one already
highlighted visual. -/
def rtStateHigh : ViewerState :=
  ⟨[⟨"A", true, false, true, 8, some 3, none, true⟩], [], none, false, 9⟩

/-- Witness for the C6 theorem at concrete states: the round trip restores
color `5`; highlighting an already-highlighted visual and unhighlighting a
non-highlighted visual are no-ops. -/
theorem highlight_unhighlight_roundtrip_witness :
    ((unhighlight_objects (highlight_objects rtState ["A"] (fun c => c + 7)).state
        (some ["A"])).state.visuals[0]?).map Visual.color = some 5
    ∧ (highlight_objects rtStateHigh ["A"] (fun c => c + 7)).state.visuals[0]?
        = some ⟨"A", true, false, true, 8, some 3, none, true⟩
    ∧ (unhighlight_objects rtState (some ["A"])).state.visuals[0]?
        = some ⟨"A", true, false, false, 5, none, none, true⟩ := by
  have h1 := highlight_unhighlight_roundtrip rtState ["A"] (fun c => c + 7) 0
    ⟨"A", true, false, false, 5, none, none, true⟩ rfl
  have h2 := highlight_unhighlight_roundtrip rtStateHigh ["A"] (fun c => c + 7) 0
    ⟨"A", true, false, true, 8, some 3, none, true⟩ rfl
  exact ⟨h1.1 rfl rfl, h2.2.1 rfl, h1.2.2 rfl⟩

/-! ## Claim theorems for auto-naming -/

theorem insertGroup_keys (objs : Objects) (v : Visual) :
    (insertGroup objs v).map Prod.fst =
      if objs.any (fun p => p.1 == v.object_id) then objs.map Prod.fst
      else objs.map Prod.fst ++ [v.object_id] := by
  rw [insertGroup]
  cases hp : (objs.any fun p => p.1 == v.object_id) with
  | false => simp
  | true =>
    simp only [if_true]
    rw [List.map_map]
    apply List.map_congr_left
    intro p hp'
    simp only [Function.comp]
    split <;> rfl

theorem objectsOf_append_single (vs : List Visual) (v : Visual) :
    objectsOf (vs ++ [v]) = insertGroup (objectsOf vs) v := by
  simp [objectsOf, List.foldl_append]

theorem keys_foldl_insertGroup_subset :
    ∀ (vs : List Visual) (acc : Objects) (k : String),
      k ∈ (vs.foldl insertGroup acc).map Prod.fst →
      k ∈ acc.map Prod.fst ∨ k ∈ vs.map Visual.object_id := by
  intro vs
  induction vs with
  | nil =>
    intro acc k h
    exact .inl h
  | cons v vs' ih =>
    intro acc k h
    rcases ih (insertGroup acc v) k h with hmem | hmem
    · rw [insertGroup_keys] at hmem
      by_cases hp : (acc.any fun p => p.1 == v.object_id) = true
      · rw [if_pos hp] at hmem
        exact .inl hmem
      · rw [if_neg hp] at hmem
        rcases List.mem_append.mp hmem with hmem' | hmem'
        · exact .inl hmem'
        · exact .inr (by simp at hmem'; simp [hmem'])
    · exact .inr (by simp [hmem])

theorem keys_objectsOf_subset (vs : List Visual) (k : String)
    (h : k ∈ (objectsOf vs).map Prod.fst) : k ∈ vs.map Visual.object_id := by
  rcases keys_foldl_insertGroup_subset vs [] k h with hmem | hmem
  · simp at hmem
  · exact hmem

theorem getLast?_append_single {α : Type} (l : List α) (a : α) :
    (l ++ [a]).getLast? = some a :=
  List.getLast?_concat l

/-- Filtering a fresh suffix: if no key of the front part carries the text as
a prefix, only the appended names survive the `_next_label` filter. -/
theorem filter_startswith_append (pfx : String) (l1 l2 : List String)
    (h : ∀ k ∈ l1, startswith pfx k = false) :
    (l1 ++ l2).filter (fun o => startswith pfx o) =
      l2.filter (fun o => startswith pfx o) := by
  rw [List.filter_append]
  rw [List.filter_eq_nil_iff.mpr (by intro a ha; simp [h a ha])]
  rfl

/-- C7: starting from a viewer holding no object whose id starts with
`"Mesh"` (and no stale cache), adding three unnamed meshes in sequence tags
them `"Mesh"`, `"Mesh.002"` and `"Mesh.003"`: the first auto-generated name of
a prefix has no suffix, and each later one appends a dot and the zero-padded
3-digit successor of the count of existing same-prefix names. -/
theorem add_mesh_auto_names (s0 : ViewerState) (c1 c2 c3 : Color)
    (hc : s0.cache = none)
    (h : ∀ w ∈ s0.visuals, (startswith "Mesh" w.object_id) = false) :
    (add_mesh s0 none c1).visuals.getLast? = some (mkMeshVisual "Mesh" c1)
    ∧ (add_mesh (add_mesh s0 none c1) none c2).visuals.getLast?
        = some (mkMeshVisual "Mesh.002" c2)
    ∧ (add_mesh (add_mesh (add_mesh s0 none c1) none c2) none c3).visuals.getLast?
        = some (mkMeshVisual "Mesh.003" c3) := by
  obtain ⟨vs, sel, cache, rs, hcl⟩ := s0
  replace hc : cache = none := hc
  subst hc
  replace h : ∀ w ∈ vs, (startswith "Mesh" w.object_id) = false := h
  have hK0 : ∀ k ∈ (objectsOf vs).map Prod.fst, (startswith "Mesh" k) = false := by
    intro k hk
    obtain ⟨w, hw, he⟩ := List.mem_map.mp (keys_objectsOf_subset vs k hk)
    exact he ▸ h w hw
  have hfilter0 : ((objectsOf vs).map Prod.fst).filter
      (fun o => startswith "Mesh" o) = [] :=
    List.filter_eq_nil_iff.mpr (fun a ha => by simp [hK0 a ha])
  have hlabel1 : next_label ((objectsOf vs).map Prod.fst) "Mesh" = "Mesh" := by
    rw [next_label, hfilter0]
    rfl
  have hs1 : add_mesh ⟨vs, sel, none, rs, hcl⟩ none c1
      = ⟨vs ++ [mkMeshVisual "Mesh" c1], sel, none, true, hcl⟩ := by
    show (⟨vs ++ [mkMeshVisual
        (next_label ((objectsOf vs).map Prod.fst) "Mesh") c1],
      sel, none, true, hcl⟩ : ViewerState) = _
    rw [hlabel1]
  have hnm1 : "Mesh" ∉ (objectsOf vs).map Prod.fst := fun hmem =>
    absurd (hK0 "Mesh" hmem) (by decide)
  have hK1 : (objectsOf (vs ++ [mkMeshVisual "Mesh" c1])).map Prod.fst
      = (objectsOf vs).map Prod.fst ++ ["Mesh"] := by
    rw [objectsOf_append_single, insertGroup_keys]
    have hfalse : ((objectsOf vs).any
        fun p => p.1 == (mkMeshVisual "Mesh" c1).object_id) = false :=
      any_keys_eq_false _ _ hnm1
    rw [if_neg (by simp [hfalse])]
    rfl
  have hlabel2 : next_label
      ((objectsOf (vs ++ [mkMeshVisual "Mesh" c1])).map Prod.fst) "Mesh"
      = "Mesh.002" := by
    rw [next_label, hK1, filter_startswith_append "Mesh" _ _ hK0]
    rfl
  have hs2 : add_mesh ⟨vs ++ [mkMeshVisual "Mesh" c1], sel, none, true, hcl⟩
      none c2
      = ⟨vs ++ [mkMeshVisual "Mesh" c1] ++ [mkMeshVisual "Mesh.002" c2],
        sel, none, true, hcl⟩ := by
    show (⟨vs ++ [mkMeshVisual "Mesh" c1] ++ [mkMeshVisual
        (next_label ((objectsOf (vs ++ [mkMeshVisual "Mesh" c1])).map
          Prod.fst) "Mesh") c2],
      sel, none, true, hcl⟩ : ViewerState) = _
    rw [hlabel2]
  have hnm2 : "Mesh.002"
      ∉ (objectsOf (vs ++ [mkMeshVisual "Mesh" c1])).map Prod.fst := by
    rw [hK1]
    rw [List.mem_append]
    rintro (hmem | hmem)
    · exact absurd (hK0 "Mesh.002" hmem) (by decide)
    · simp at hmem
  have hK2 : (objectsOf (vs ++ [mkMeshVisual "Mesh" c1]
        ++ [mkMeshVisual "Mesh.002" c2])).map Prod.fst
      = (objectsOf vs).map Prod.fst ++ ["Mesh", "Mesh.002"] := by
    rw [objectsOf_append_single, insertGroup_keys]
    have hfalse : ((objectsOf (vs ++ [mkMeshVisual "Mesh" c1])).any
        fun p => p.1 == (mkMeshVisual "Mesh.002" c2).object_id) = false :=
      any_keys_eq_false _ _ hnm2
    rw [if_neg (by simp [hfalse]), hK1, List.append_assoc]
    rfl
  have hlabel3 : next_label
      ((objectsOf (vs ++ [mkMeshVisual "Mesh" c1]
        ++ [mkMeshVisual "Mesh.002" c2])).map Prod.fst) "Mesh"
      = "Mesh.003" := by
    rw [next_label, hK2, filter_startswith_append "Mesh" _ _ hK0]
    rfl
  have hs3 : add_mesh ⟨vs ++ [mkMeshVisual "Mesh" c1]
        ++ [mkMeshVisual "Mesh.002" c2], sel, none, true, hcl⟩ none c3
      = ⟨vs ++ [mkMeshVisual "Mesh" c1] ++ [mkMeshVisual "Mesh.002" c2]
          ++ [mkMeshVisual "Mesh.003" c3],
        sel, none, true, hcl⟩ := by
    show (⟨vs ++ [mkMeshVisual "Mesh" c1] ++ [mkMeshVisual "Mesh.002" c2]
        ++ [mkMeshVisual
          (next_label ((objectsOf (vs ++ [mkMeshVisual "Mesh" c1]
            ++ [mkMeshVisual "Mesh.002" c2])).map Prod.fst) "Mesh") c3],
      sel, none, true, hcl⟩ : ViewerState) = _
    rw [hlabel3]
  refine ⟨?_, ?_, ?_⟩
  · rw [hs1]
    exact getLast?_append_single _ _
  · rw [hs1, hs2]
    exact getLast?_append_single _ _
  · rw [hs1, hs2, hs3]
    exact getLast?_append_single _ _

/-- A freshly created viewer: empty scene, empty selection, invalidated
cache. -/
def emptyViewer : ViewerState := ⟨[], [], none, false, 0⟩

/-- Witness for the C7 theorem on a fresh viewer. -/
theorem add_mesh_auto_names_witness :
    (add_mesh emptyViewer none 10).visuals.getLast?
        = some (mkMeshVisual "Mesh" 10)
    ∧ (add_mesh (add_mesh emptyViewer none 10) none 11).visuals.getLast?
        = some (mkMeshVisual "Mesh.002" 11)
    ∧ (add_mesh (add_mesh (add_mesh emptyViewer none 10) none 11)
        none 12).visuals.getLast?
        = some (mkMeshVisual "Mesh.003" 12) :=
  add_mesh_auto_names emptyViewer 10 11 12 rfl
    (by intro w hw; simp [emptyViewer] at hw)

/-! ## Claim theorems for the animation loop and the selection gizmo -/

/-- C8 (evaluating the code at the failing input): with a single registered
callback under error policy `"remove"` that raises during the frame, the
error branch of `_animate` flags the `enumerate` index `0` (an int) instead of
the callback function, and the post-iteration pruning `self._animations.pop(0)`
raises `KeyError` — the dict is keyed by the function, so the callback is
never removed and the exception escapes the render callback.  By contrast,
when the same callback is flagged through `remove_animation` (which correctly
flags the function itself), a frame in which it does not raise prunes it
cleanly and the loop completes. -/
theorem animate_remove_policy_keyerror :
    animate ⟨[(.func 0, ⟨.remove, none, true⟩)], [], 0, false⟩ (fun _ => true)
      = .error (.keyErr (.int 0))
    ∧ animate
        (remove_animation ⟨[(.func 0, ⟨.remove, none, true⟩)], [], 0, false⟩
          (.func 0))
        (fun _ => false)
      = .ok ⟨[], [], 1, true⟩ := by
  constructor
  · rfl
  · rfl

/-- C9 (evaluating the code at the failing input): with `force_square`
configured, an active drag and a pointer-move inside the viewport, the
pointer-move handler raises `AttributeError` (line 358 reads
`self._sel["start"]`, but the attribute holding the drag rectangle is
`_sel_info`), so the sign-preserving width==height clamp never runs and the
stored far corner never changes; without `force_square` the same event stores
the new far corner as expected. -/
theorem selection_move_force_square_attrerror :
    process_pointer_move ⟨true, false, true, ⟨0, 0⟩, ⟨0, 0⟩, true⟩
        (some ⟨3, 2⟩)
      = .error .attributeErr
    ∧ process_pointer_move ⟨false, false, true, ⟨0, 0⟩, ⟨0, 0⟩, true⟩
        (some ⟨3, 2⟩)
      = .ok ⟨false, false, true, ⟨0, 0⟩, ⟨3, 2⟩, true⟩ := by
  constructor
  · rfl
  · rfl

end Octarine
